import Mathlib

/-!
Verification of the lexicon-based textual scoring engine of `src/app.py`
(kasheena/code_for_good).

The embedding models text as `List Char` (Python `str`), money-free exact
arithmetic as `ℚ` (Python floats here only ever hold small decimal fractions,
and every claim is about exact algebraic structure, not rounding), and the
external VADER sentiment provider as an explicit `compound : ℚ` parameter
(the code calls `sia.polarity_scores(text)['compound']`, a value in [-1, 1]
supplied by an external collaborator).

Python reference, `analyze_text` (src/app.py, lines 31-64):
  text = text.lower()
  for category, keywords in mental_health_keywords.items():
      score = 0
      for keyword in keywords:
          if keyword in text: score += 1
      category_scores[category] = min(score / len(keywords) * 2, 1.0)
  risk_score = (1 - sentiment[compound-key]) * 50
      + category_scores.get(depression-key, 0) * 15 + ... (anxiety 12,
        sleep 10, social 8, motivation 5)
  risk_score = max(0, min(100, risk_score))

The tier labels, recommendation gates and support resources are from
`main` (src/app.py, lines 279-290 and 342-347). Non-ASCII characters in
the label strings are copied byte-for-byte from the source file.
-/

/-- Python `str.lower()` restricted to the ASCII range, which is the only
range exercised by the lexicon (all keywords are lower-case ASCII). -/
def lowerText (t : List Char) : List Char := t.map Char.toLower

/-- Helper for `hasSub`: does `k` occur at the very start of `t`? -/
def startsSub : List Char → List Char → Bool
  | [], _ => true
  | _ :: _, [] => false
  | a :: ks, b :: ts => a == b && startsSub ks ts

/-- Python `k in t` for strings: `k` occurs as a contiguous substring of
`t` (at any position, with no boundary condition). -/
def hasSub (k : List Char) : List Char → Bool
  | [] => k.isEmpty
  | b :: ts => startsSub k (b :: ts) || hasSub k ts

/-- The test `if keyword in text` after `text = text.lower()` in
`analyze_text`. -/
def keywordOccurs (k : String) (t : List Char) : Bool :=
  hasSub k.toList (lowerText t)

/-- Keyword list of the "sleep" category (src/app.py line 23). -/
def sleep_keywords : List String :=
  ["sleep", "insomnia", "tired", "exhausted", "rest", "bed", "awake", "nap"]

/-- Keyword list of the "anxiety" category (src/app.py line 24). -/
def anxiety_keywords : List String :=
  ["worry", "anxious", "nervous", "stress", "panic", "fear", "overwhelm"]

/-- Keyword list of the "depression" category (src/app.py line 25). -/
def depression_keywords : List String :=
  ["sad", "depress", "empty", "hopeless", "worthless", "lonely", "numb"]

/-- Keyword list of the "social" category (src/app.py line 26). -/
def social_keywords : List String :=
  ["friend", "family", "people", "alone", "isolat", "talk", "social"]

/-- Keyword list of the "motivation" category (src/app.py line 27). -/
def motivation_keywords : List String :=
  ["motivat", "energy", "interest", "hobby", "passion", "enjoy", "effort"]

/-- The module-level dictionary `mental_health_keywords`
(src/app.py lines 22-28), in its insertion order. -/
def mental_health_keywords : List (String × List String) :=
  [("sleep", sleep_keywords), ("anxiety", anxiety_keywords),
   ("depression", depression_keywords), ("social", social_keywords),
   ("motivation", motivation_keywords)]

/-- The inner loop of `analyze_text`: `score` after
`for keyword in keywords: if keyword in text: score += 1` — the number of
distinct keywords of the category that occur in the lowered text. -/
def categoryCount (kws : List String) (t : List Char) : Nat :=
  kws.countP (fun k => keywordOccurs k t)

/-- The normalisation step `min(score / len(keywords) * 2, 1.0)`
(src/app.py line 45). -/
def categoryScore (kws : List String) (t : List Char) : ℚ :=
  min ((categoryCount kws t : ℚ) / (kws.length : ℚ) * 2) 1

/-- The `category_scores` dictionary built by `analyze_text`
(src/app.py lines 38-45), as an association list in category order. -/
def category_scores (t : List Char) : List (String × ℚ) :=
  mental_health_keywords.map (fun p => (p.1, categoryScore p.2 t))

/-- Python `dict.get(name, 0)` on the association list. -/
def getScore (scores : List (String × ℚ)) (name : String) : ℚ :=
  match scores.find? (fun p => p.1 == name) with
  | some p => p.2
  | none => 0

/-- The risk formula of `analyze_text` before clamping
(src/app.py lines 48-55). -/
def rawScore (compound : ℚ) (t : List Char) : ℚ :=
  (1 - compound) * 50
  + getScore (category_scores t) "depression" * 15
  + getScore (category_scores t) "anxiety" * 12
  + getScore (category_scores t) "sleep" * 10
  + getScore (category_scores t) "social" * 8
  + getScore (category_scores t) "motivation" * 5

/-- The terminal clamping step `max(0, min(100, risk_score))`
(src/app.py line 58). -/
def clamp (x : ℚ) : ℚ := max 0 (min 100 x)

/-- The final `risk_score` returned by `analyze_text`. -/
def risk_score (compound : ℚ) (t : List Char) : ℚ := clamp (rawScore compound t)

/-- The keyword-derived (lexical-only) part of the risk formula: the five
weighted normalised category scores, without the sentiment term. -/
def lexicalScore (t : List Char) : ℚ :=
  categoryScore depression_keywords t * 15
  + categoryScore anxiety_keywords t * 12
  + categoryScore sleep_keywords t * 10
  + categoryScore social_keywords t * 8
  + categoryScore motivation_keywords t * 5

/-- The dictionary returned by `analyze_text` (src/app.py lines 60-64);
the detailed sentiment sub-scores other than `compound` are carried by the
external provider and never used downstream, so only `compound` is kept. -/
structure AnalysisResult where
  sentiment_compound : ℚ
  category_scores : List (String × ℚ)
  risk_score : ℚ
deriving Repr, DecidableEq

/-- The function `analyze_text` (src/app.py lines 31-64), with the external
sentiment provider result passed in as `compound`. -/
def analyze_text (compound : ℚ) (text : List Char) : AnalysisResult :=
  { sentiment_compound := compound
  , category_scores := category_scores text
  , risk_score := risk_score compound text }

/-- The tier classification of `main` (src/app.py lines 279-290): the
`wellbeing_level` assigned to a risk score by the if/elif chain. -/
def wellbeing_level (risk : ℚ) : String :=
  if risk < 30 then "Thriving üå±"
  else if risk < 50 then "Growing Steadily üåø"
  else if risk < 70 then "Needs Some Tending üçÇ"
  else "In Need of Care ü•Ä"

/-- The three crisis-resource lines of the Support Resources section
(src/app.py lines 345-347), byte-for-byte. -/
def support_resources : List String :=
  ["- **Crisis Text Line**: Text HOME to 741741",
   "- **National Suicide Prevention Lifeline**: 988 or 1-800-273-8255",
   "- **SAMHSA\x27s National Helpline**: 1-800-662-4357"]

/-- The guard `if risk_score >= 70:` around the Support Resources section
(src/app.py lines 342-347): which resource lines are rendered. -/
def displayed_support_resources (risk : ℚ) : List String :=
  if 70 ≤ risk then support_resources else []

/-- Is the character part of an alphanumeric token? (Spec-side notion used
by the word-boundary refinement claim.) -/
def isWordChar (c : Char) : Bool := c.isAlphanum

/-- Modelled from the spec (refinement side of claim C1, spec section 4.2):
`find_matches` is required to be word-boundary aware — a term matches only
as a whole word, never inside a larger alphanumeric token. This predicate
holds when the term occurs at some position of the lowered text with no
alphanumeric character immediately before or after the occurrence. The
repository code has no such check; this definition exists only to be
compared with the substring semantics `keywordOccurs` of the source. -/
def specWholeWordOccurs (k t : List Char) : Bool :=
  (List.range ((lowerText t).length + 1)).any (fun i =>
    startsSub k ((lowerText t).drop i)
    && (decide (i = 0) || !(isWordChar ((lowerText t).getD (i - 1) ' ')))
    && (decide ((lowerText t).length ≤ i + k.length)
        || !(isWordChar ((lowerText t).getD (i + k.length) ' '))))

/-- Modelled from the spec (refinement side of claim C4, spec section 4.3):
the number of positions at which a term occurs in the lowered text — the
"matched occurrences" the spec counts, as opposed to the 0/1 presence flag
the code accumulates. -/
def occCount (k t : List Char) : Nat :=
  (List.range (t.length + 1)).countP (fun i => startsSub k (t.drop i))

/-- Modelled from the spec (refinement side of claim C4): per-category
count of matched occurrences. -/
def categoryOccCount (kws : List String) (t : List Char) : Nat :=
  (kws.map (fun k => occCount k.toList (lowerText t))).sum

/-- Modelled from the spec (refinement side of claim C4, spec section 4.3):
raw score = sum over categories of category weight times category
occurrence count, with the weights of src/app.py lines 50-54. -/
def specRawScore (t : List Char) : ℚ :=
  (categoryOccCount depression_keywords t : ℚ) * 15
  + (categoryOccCount anxiety_keywords t : ℚ) * 12
  + (categoryOccCount sleep_keywords t : ℚ) * 10
  + (categoryOccCount social_keywords t : ℚ) * 8
  + (categoryOccCount motivation_keywords t : ℚ) * 5

/-- Modelled from the spec: the repository has no Annotator (src/app.py
renders the raw text with no span markup); spec section 4.5 defines
`annotate(text, resolved_spans)` as walking the resolved spans in ascending
start order, emitting the untagged slice before each span when non-empty,
then the tagged slice of the span, and finally the trailing untagged slice.
A span is `(start, stop, category)` with half-open range `[start, stop)`;
a segment is a text slice paired with `some category` or `none`. -/
def annotate (text : List Char) : Nat → List (Nat × Nat × String) →
    List (List Char × Option String)
  | pos, [] => [(text.drop pos, none)]
  | pos, (s, e, cat) :: rest =>
    (if ((text.drop pos).take (s - pos)).isEmpty then []
     else [((text.drop pos).take (s - pos), (none : Option String))])
    ++ ((text.drop s).take (e - s), some cat) :: annotate text e rest

/-- Modelled from the spec: the ResolvedSpanSet invariant of spec
section 3 — spans are ordered, pairwise disjoint and inside the text —
checked from a running lower bound `pos`. -/
def spansOK (len : Nat) : Nat → List (Nat × Nat × String) → Bool
  | _, [] => true
  | pos, (s, e, _) :: rest =>
    decide (pos ≤ s) && decide (s ≤ e) && decide (e ≤ len) && spansOK len e rest

/-- Concatenation of the text slices of a segment sequence. -/
def segmentsText (segs : List (List Char × Option String)) : List Char :=
  (segs.map Prod.fst).flatten

/-- Bool-valued helper: the keyword is non-empty and starts with a letter.
Every keyword of the lexicon satisfies it (`keywords_head_alpha`). -/
def headAlpha (k : String) : Bool :=
  match k.toList with
  | [] => false
  | c :: _ => c.isAlpha

lemma lowerText_append (a b : List Char) :
    lowerText (a ++ b) = lowerText a ++ lowerText b :=
  List.map_append _ a b

lemma startsSub_append (k t u : List Char) (h : startsSub k t = true) :
    startsSub k (t ++ u) = true := by
  induction k generalizing t with
  | nil => rfl
  | cons a ks ih =>
    cases t with
    | nil => simp [startsSub] at h
    | cons b ts =>
      rw [List.cons_append]
      rw [startsSub, Bool.and_eq_true] at h ⊢
      exact ⟨h.1, ih ts h.2⟩

lemma startsSub_self_append (k u : List Char) : startsSub k (k ++ u) = true := by
  induction k with
  | nil => rfl
  | cons a ks ih =>
    rw [List.cons_append, startsSub, Bool.and_eq_true]
    exact ⟨by simp, ih⟩

lemma hasSub_nil_left (u : List Char) : hasSub [] u = true := by
  cases u with
  | nil => rfl
  | cons b ts => rw [hasSub, startsSub]; simp

lemma hasSub_of_startsSub (k t : List Char) (h : startsSub k t = true) :
    hasSub k t = true := by
  cases t with
  | nil =>
    cases k with
    | nil => rfl
    | cons a ks => simp [startsSub] at h
  | cons b ts => rw [hasSub, h]; simp

lemma hasSub_append_right (k t u : List Char) (h : hasSub k t = true) :
    hasSub k (t ++ u) = true := by
  induction t with
  | nil =>
    rw [hasSub] at h
    have : k = [] := by simpa using h
    subst this
    simpa using hasSub_nil_left u
  | cons b ts ih =>
    rw [List.cons_append, hasSub, Bool.or_eq_true]
    rw [hasSub, Bool.or_eq_true] at h
    rcases h with h | h
    · exact Or.inl (by simpa using startsSub_append k (b :: ts) u h)
    · exact Or.inr (ih h)

lemma hasSub_append_left (k p t : List Char) (h : hasSub k t = true) :
    hasSub k (p ++ t) = true := by
  induction p with
  | nil => simpa using h
  | cons a ps ih =>
    rw [List.cons_append, hasSub, Bool.or_eq_true]
    exact Or.inr ih

lemma hasSub_head_mem (c : Char) (ks t : List Char)
    (h : hasSub (c :: ks) t = true) : c ∈ t := by
  induction t with
  | nil => simp [hasSub] at h
  | cons b ts ih =>
    rw [hasSub, Bool.or_eq_true] at h
    rcases h with h | h
    · rw [startsSub, Bool.and_eq_true] at h
      have : c = b := by simpa using h.1
      simp [this]
    · exact List.mem_cons_of_mem _ (ih h)

lemma keywordOccurs_append (k : String) (t u : List Char)
    (h : keywordOccurs k t = true) : keywordOccurs k (t ++ u) = true := by
  rw [keywordOccurs, lowerText_append]
  exact hasSub_append_right _ _ _ h

lemma categoryCount_le_append (kws : List String) (t u : List Char) :
    categoryCount kws t ≤ categoryCount kws (t ++ u) :=
  List.countP_mono_left (fun k _ hk => keywordOccurs_append k t u hk)

lemma categoryCount_le_length (kws : List String) (t : List Char) :
    categoryCount kws t ≤ kws.length := by
  rw [categoryCount]
  exact List.countP_le_length _

lemma categoryScore_nonneg (kws : List String) (t : List Char) :
    0 ≤ categoryScore kws t := by
  rw [categoryScore]
  apply le_min _ (by norm_num)
  positivity

lemma categoryScore_le_one (kws : List String) (t : List Char) :
    categoryScore kws t ≤ 1 :=
  min_le_right _ _

lemma categoryScore_eq (kws : List String) (t : List Char) :
    categoryScore kws t
      = min (2 * (categoryCount kws t : ℚ) / (kws.length : ℚ)) 1 := by
  rw [categoryScore]
  congr 1
  ring

lemma categoryScore_mono (kws : List String) (t u : List Char) :
    categoryScore kws t ≤ categoryScore kws (t ++ u) := by
  have hc : (categoryCount kws t : ℚ) ≤ (categoryCount kws (t ++ u) : ℚ) := by
    exact_mod_cast categoryCount_le_append kws t u
  rw [categoryScore, categoryScore]
  apply min_le_min _ le_rfl
  rcases eq_or_lt_of_le (Nat.cast_nonneg kws.length : (0:ℚ) ≤ kws.length) with h0 | h0
  · rw [← h0]
    simp
  · have hdiv := (div_le_div_iff_of_pos_right h0).mpr hc
    exact mul_le_mul_of_nonneg_right hdiv (by norm_num)

lemma lexicalScore_mono (t u : List Char) :
    lexicalScore t ≤ lexicalScore (t ++ u) := by
  rw [lexicalScore, lexicalScore]
  have h1 := categoryScore_mono depression_keywords t u
  have h2 := categoryScore_mono anxiety_keywords t u
  have h3 := categoryScore_mono sleep_keywords t u
  have h4 := categoryScore_mono social_keywords t u
  have h5 := categoryScore_mono motivation_keywords t u
  have w1 : categoryScore depression_keywords t * 15
      ≤ categoryScore depression_keywords (t ++ u) * 15 :=
    mul_le_mul_of_nonneg_right h1 (by norm_num)
  have w2 : categoryScore anxiety_keywords t * 12
      ≤ categoryScore anxiety_keywords (t ++ u) * 12 :=
    mul_le_mul_of_nonneg_right h2 (by norm_num)
  have w3 : categoryScore sleep_keywords t * 10
      ≤ categoryScore sleep_keywords (t ++ u) * 10 :=
    mul_le_mul_of_nonneg_right h3 (by norm_num)
  have w4 : categoryScore social_keywords t * 8
      ≤ categoryScore social_keywords (t ++ u) * 8 :=
    mul_le_mul_of_nonneg_right h4 (by norm_num)
  have w5 : categoryScore motivation_keywords t * 5
      ≤ categoryScore motivation_keywords (t ++ u) * 5 :=
    mul_le_mul_of_nonneg_right h5 (by norm_num)
  exact add_le_add (add_le_add (add_le_add (add_le_add w1 w2) w3) w4) w5

lemma rawScore_eq_categoryScores (compound : ℚ) (t : List Char) :
    rawScore compound t
      = (1 - compound) * 50
        + categoryScore depression_keywords t * 15
        + categoryScore anxiety_keywords t * 12
        + categoryScore sleep_keywords t * 10
        + categoryScore social_keywords t * 8
        + categoryScore motivation_keywords t * 5 := rfl

lemma rawScore_eq_lexical (compound : ℚ) (t : List Char) :
    rawScore compound t = (1 - compound) * 50 + lexicalScore t := by
  rw [rawScore_eq_categoryScores, lexicalScore]
  ring

lemma clamp_nonneg (x : ℚ) : 0 ≤ clamp x := le_max_left 0 _

lemma clamp_le_hundred (x : ℚ) : clamp x ≤ 100 :=
  max_le (by norm_num) (min_le_left _ _)

lemma clamp_idem (x : ℚ) : clamp (clamp x) = clamp x := by
  rw [clamp, min_eq_right (clamp_le_hundred x), max_eq_right (clamp_nonneg x)]

lemma keywords_lower :
    ∀ p ∈ mental_health_keywords, ∀ k ∈ p.2, lowerText k.toList = k.toList := by
  decide

lemma keywords_head_alpha :
    ∀ p ∈ mental_health_keywords, ∀ k ∈ p.2, headAlpha k = true := by
  decide

lemma whitespace_char (c : Char) (h : c.isWhitespace = true) :
    c.toLower = c ∧ c.isAlpha = false := by
  rw [Char.isWhitespace] at h
  simp only [Bool.or_eq_true, decide_eq_true_eq] at h
  rcases h with ((h | h) | h) | h <;> subst h <;> exact ⟨by decide, by decide⟩

lemma keywordOccurs_whitespace (k : String) (hk : headAlpha k = true)
    (t : List Char) (ht : ∀ c ∈ t, c.isWhitespace = true) :
    keywordOccurs k t = false := by
  cases hkl : k.toList with
  | nil =>
    rw [headAlpha.eq_def, hkl] at hk
    simp at hk
  | cons c ks =>
    have hca : c.isAlpha = true := by
      rw [headAlpha.eq_def, hkl] at hk
      exact hk
    by_contra hocc
    rw [keywordOccurs, hkl] at hocc
    have hmem : c ∈ lowerText t :=
      hasSub_head_mem c ks _ (by simpa using hocc)
    rw [lowerText, List.mem_map] at hmem
    obtain ⟨d, hd, hdc⟩ := hmem
    obtain ⟨hlow, halpha⟩ := whitespace_char d (ht d hd)
    rw [hlow] at hdc
    rw [hdc] at halpha
    rw [hca] at halpha
    exact absurd halpha (by simp)

lemma categoryScore_whitespace (kws : List String)
    (hkw : ∀ k ∈ kws, headAlpha k = true)
    (t : List Char) (ht : ∀ c ∈ t, c.isWhitespace = true) :
    categoryScore kws t = 0 := by
  have hcnt : categoryCount kws t = 0 := by
    rw [categoryCount, List.countP_eq_zero]
    intro k hk
    simp [keywordOccurs_whitespace k (hkw k hk) t ht]
  rw [categoryScore, hcnt]
  norm_num

lemma risk_score_whitespace (t : List Char)
    (ht : ∀ c ∈ t, c.isWhitespace = true) : risk_score 0 t = 50 := by
  have h := fun kws hkw => categoryScore_whitespace kws hkw t ht
  have h1 := h depression_keywords (by decide)
  have h2 := h anxiety_keywords (by decide)
  have h3 := h sleep_keywords (by decide)
  have h4 := h social_keywords (by decide)
  have h5 := h motivation_keywords (by decide)
  rw [risk_score, rawScore_eq_categoryScores, h1, h2, h3, h4, h5, clamp]
  norm_num

lemma annotate_flatten (text : List Char) :
    ∀ (spans : List (Nat × Nat × String)) (pos : Nat),
      spansOK text.length pos spans = true →
      segmentsText (annotate text pos spans) = text.drop pos := by
  intro spans
  induction spans with
  | nil =>
    intro pos _
    simp [annotate, segmentsText]
  | cons sp rest ih =>
    intro pos hok
    obtain ⟨s, e, cat⟩ := sp
    rw [spansOK] at hok
    simp only [Bool.and_eq_true, decide_eq_true_eq] at hok
    obtain ⟨⟨⟨hps, hse⟩, _⟩, hrest⟩ := hok
    have htail := ih e hrest
    have hgap : text.drop pos
        = (text.drop pos).take (s - pos) ++ text.drop s := by
      have harg : pos + (s - pos) = s := by omega
      conv_lhs => rw [← List.take_append_drop (s - pos) (text.drop pos)]
      rw [List.drop_drop, harg]
    have hspan : text.drop s
        = (text.drop s).take (e - s) ++ text.drop e := by
      have harg : s + (e - s) = e := by omega
      conv_lhs => rw [← List.take_append_drop (e - s) (text.drop s)]
      rw [List.drop_drop, harg]
    rw [annotate]
    by_cases hempty : ((text.drop pos).take (s - pos)).isEmpty
    · rw [if_pos hempty]
      have hnil : (text.drop pos).take (s - pos) = [] := by
        simpa using hempty
      rw [segmentsText] at htail ⊢
      simp only [List.nil_append, List.map_cons, List.flatten_cons]
      rw [htail]
      conv_rhs => rw [hgap, hnil, List.nil_append, hspan]
    · rw [if_neg hempty]
      rw [segmentsText] at htail ⊢
      simp only [List.cons_append, List.nil_append, List.map_cons,
        List.flatten_cons]
      rw [htail]
      conv_rhs => rw [hgap, hspan]

/-- Claim C5: for every sentiment value and every input text, the final
composite `risk_score` of `analyze_text` lies within the fixed range
[0, 100], and clamping is the terminal, idempotent step: re-clamping the
already-clamped score leaves it unchanged. -/
theorem claim_C5_boundedness (compound : ℚ) (t : List Char) :
    0 ≤ (analyze_text compound t).risk_score
    ∧ (analyze_text compound t).risk_score ≤ 100
    ∧ clamp ((analyze_text compound t).risk_score)
        = (analyze_text compound t).risk_score :=
  ⟨clamp_nonneg _, clamp_le_hundred _, clamp_idem _⟩

/-- Claim C6: the if/elif chain of `main` partitions scores into four
tiers with boundaries inclusive on the lower end: a score exactly at 30,
50 or 70 classifies into the tier starting there, and every score receives
exactly one of the four tier labels. -/
theorem claim_C6_tier_boundaries (s : ℚ) :
    (s < 30 → wellbeing_level s = "Thriving üå±")
    ∧ (30 ≤ s ∧ s < 50 → wellbeing_level s = "Growing Steadily üåø")
    ∧ (50 ≤ s ∧ s < 70 → wellbeing_level s = "Needs Some Tending üçÇ")
    ∧ (70 ≤ s → wellbeing_level s = "In Need of Care ü•Ä")
    ∧ (wellbeing_level s = "Thriving üå±"
       ∨ wellbeing_level s = "Growing Steadily üåø"
       ∨ wellbeing_level s = "Needs Some Tending üçÇ"
       ∨ wellbeing_level s = "In Need of Care ü•Ä") := by
  refine ⟨?_, ?_, ?_, ?_, ?_⟩
  · intro h
    rw [wellbeing_level, if_pos h]
  · rintro ⟨h1, h2⟩
    rw [wellbeing_level, if_neg (by linarith), if_pos h2]
  · rintro ⟨h1, h2⟩
    rw [wellbeing_level, if_neg (by linarith), if_neg (by linarith), if_pos h2]
  · intro h
    rw [wellbeing_level, if_neg (by linarith), if_neg (by linarith),
      if_neg (by linarith)]
  · rw [wellbeing_level]
    split_ifs <;> simp

/-- Claim C6 witness: scores exactly at the boundaries 30, 50 and 70
classify into the upper tier. -/
theorem claim_C6_witness :
    wellbeing_level 30 = "Growing Steadily üåø"
    ∧ wellbeing_level 50 = "Needs Some Tending üçÇ"
    ∧ wellbeing_level 70 = "In Need of Care ü•Ä" :=
  ⟨(claim_C6_tier_boundaries 30).2.1 ⟨by decide, by decide⟩,
   (claim_C6_tier_boundaries 50).2.2.1 ⟨by decide, by decide⟩,
   (claim_C6_tier_boundaries 70).2.2.2.1 (by decide)⟩

lemma wellbeing_level_care_iff (risk : ℚ) :
    wellbeing_level risk = "In Need of Care ü•Ä" ↔ 70 ≤ risk := by
  rw [wellbeing_level]
  split_ifs with h1 h2 h3
  · exact iff_of_false (by decide) (by intro hc; linarith)
  · exact iff_of_false (by decide) (by intro hc; linarith)
  · exact iff_of_false (by decide) (by intro hc; linarith)
  · exact iff_of_true rfl (not_lt.mp h3)

/-- Claim C7: the crisis-resource strings are rendered, verbatim and
unmodified (the rendered list is equal to the fixed `support_resources`
list), exactly when the score reaches 70 — equivalently, exactly when the
classification is the highest tier — and nothing of them is rendered
otherwise. -/
theorem claim_C7_crisis_resources (risk : ℚ) :
    (displayed_support_resources risk = support_resources ↔ 70 ≤ risk)
    ∧ (displayed_support_resources risk = support_resources
        ↔ wellbeing_level risk = "In Need of Care ü•Ä")
    ∧ (displayed_support_resources risk = [] ↔ risk < 70) := by
  have h1 : displayed_support_resources risk = support_resources ↔ 70 ≤ risk := by
    rw [displayed_support_resources]
    split_ifs with h
    · exact iff_of_true rfl h
    · exact iff_of_false (by decide) h
  refine ⟨h1, ?_, ?_⟩
  · rw [wellbeing_level_care_iff]
    exact h1
  · rw [displayed_support_resources]
    split_ifs with h
    · exact iff_of_false (by decide) (by intro hc; linarith)
    · exact iff_of_true rfl (not_le.mp h)

/-- Claim C8: extending a text with an additional occurrence of any
lexicon term (the term appended after any separator) never decreases the
keyword-derived weighted score. -/
theorem claim_C8_monotonicity (cat : String) (kws : List String)
    (hmem : (cat, kws) ∈ mental_health_keywords) (k : String) (hk : k ∈ kws)
    (t sep : List Char) :
    lexicalScore t ≤ lexicalScore (t ++ sep ++ k.toList) := by
  have h := lexicalScore_mono t (sep ++ k.toList)
  rwa [← List.append_assoc] at h

/-- Claim C8 witness: appending the anxiety term `worry` to the text
`sad` does not decrease the lexical score. -/
theorem claim_C8_witness :
    lexicalScore "sad".toList
      ≤ lexicalScore ("sad".toList ++ " ".toList ++ "worry".toList) :=
  claim_C8_monotonicity "anxiety" anxiety_keywords (by decide) "worry"
    (by decide) _ _

/-- Claim C10: every per-category score produced by `analyze_text` lies in
[0, 1] and equals the distinct-keyword count divided by the category list
length, scaled by 2 and capped at 1. -/
theorem claim_C10_normalized_scores (compound : ℚ) (t : List Char)
    (cat : String) (q : ℚ)
    (hmem : (cat, q) ∈ (analyze_text compound t).category_scores) :
    0 ≤ q ∧ q ≤ 1
    ∧ ∃ kws, (cat, kws) ∈ mental_health_keywords
        ∧ q = min (2 * (categoryCount kws t : ℚ) / (kws.length : ℚ)) 1 := by
  have hmem' : (cat, q) ∈ category_scores t := hmem
  rw [category_scores, List.mem_map] at hmem'
  obtain ⟨p, hp, heq⟩ := hmem'
  have hcat : p.1 = cat := congrArg Prod.fst heq
  have hq : categoryScore p.2 t = q := congrArg Prod.snd heq
  refine ⟨hq ▸ categoryScore_nonneg p.2 t, hq ▸ categoryScore_le_one p.2 t,
    p.2, ?_, ?_⟩
  · rw [← hcat]
    simpa using hp
  · rw [← hq, categoryScore_eq]

/-- Claim C10 witness: the sleep category score of the text `tired` is in
[0, 1] and has the documented normalised form. -/
theorem claim_C10_witness :
    0 ≤ categoryScore sleep_keywords "tired".toList
    ∧ categoryScore sleep_keywords "tired".toList ≤ 1
    ∧ ∃ kws, ("sleep", kws) ∈ mental_health_keywords
        ∧ categoryScore sleep_keywords "tired".toList
          = min (2 * (categoryCount kws "tired".toList : ℚ) / (kws.length : ℚ)) 1 :=
  claim_C10_normalized_scores 0 "tired".toList "sleep" _ (List.Mem.head _)

/-- Claim C1 counterexample: the sleep term `rest` is reported as a match
inside the single larger alphanumeric token `restaurant` (where it is not
a whole word under the word-boundary semantics the claim requires), and it
is counted by the category counter. -/
theorem claim_C1_counterexample :
    "rest" ∈ sleep_keywords
    ∧ keywordOccurs "rest" "restaurant".toList = true
    ∧ specWholeWordOccurs "rest".toList "restaurant".toList = false
    ∧ categoryCount sleep_keywords "restaurant".toList = 1 := by
  decide

/-- Claim C1 as amended: matching is plain substring matching — every
lexicon term matches in any text that contains it as a contiguous
substring, even when the surrounding characters make it an inner part of a
larger alphanumeric token. -/
theorem claim_C1_substring_matching (cat : String) (kws : List String)
    (hmem : (cat, kws) ∈ mental_health_keywords) (k : String) (hk : k ∈ kws)
    (p s : List Char) :
    keywordOccurs k (p ++ k.toList ++ s) = true := by
  have hlow : lowerText k.toList = k.toList :=
    keywords_lower (cat, kws) hmem k hk
  rw [keywordOccurs, lowerText_append, lowerText_append, hlow,
    List.append_assoc]
  exact hasSub_append_left _ _ _
    (hasSub_of_startsSub _ _ (startsSub_self_append _ _))

/-- Claim C1 witness: `rest` embedded in the larger token `aurestant`
still matches. -/
theorem claim_C1_witness :
    keywordOccurs "rest" ("au".toList ++ "rest".toList ++ "ant".toList) = true :=
  claim_C1_substring_matching "sleep" sleep_keywords (by decide) "rest"
    (by decide) "au".toList "ant".toList

/-- Claim C2 counterexample: on the empty text with the neutral sentiment
value the provider returns for it, `analyze_text` yields the score 50 (not
0) and the third tier (not the lowest). -/
theorem claim_C2_counterexample :
    risk_score 0 "".toList = 50
    ∧ (50 : ℚ) ≠ 0
    ∧ wellbeing_level (risk_score 0 "".toList) = "Needs Some Tending üçÇ"
    ∧ "Needs Some Tending üçÇ" ≠ "Thriving üå±" := by
  have h50 : risk_score 0 "".toList = 50 :=
    risk_score_whitespace _ (by decide)
  refine ⟨h50, by norm_num, ?_, by decide⟩
  rw [h50, wellbeing_level, if_neg (by norm_num), if_neg (by norm_num),
    if_pos (by norm_num)]

/-- Claim C2 as amended: empty or whitespace-only input is a well-defined
no-op for the matcher (no category matches anything, all category scores
are 0), but the final score is the neutral-sentiment baseline 50 — not
0 — and the classification is the third tier, not the lowest. -/
theorem claim_C2_empty_input (t : List Char)
    (hws : ∀ c ∈ t, c.isWhitespace = true) :
    (∀ cat kws, (cat, kws) ∈ mental_health_keywords → categoryScore kws t = 0)
    ∧ risk_score 0 t = 50
    ∧ wellbeing_level (risk_score 0 t) = "Needs Some Tending üçÇ" := by
  have hz : ∀ cat kws, (cat, kws) ∈ mental_health_keywords →
      categoryScore kws t = 0 := by
    intro cat kws hmem
    exact categoryScore_whitespace kws
      (fun k hk => keywords_head_alpha (cat, kws) hmem k hk) t hws
  have h50 := risk_score_whitespace t hws
  refine ⟨hz, h50, ?_⟩
  rw [h50, wellbeing_level, if_neg (by norm_num), if_neg (by norm_num),
    if_pos (by norm_num)]

/-- Claim C2 witness: the amended statement evaluated on the empty text. -/
theorem claim_C2_witness :
    (∀ cat kws, (cat, kws) ∈ mental_health_keywords →
      categoryScore kws "".toList = 0)
    ∧ risk_score 0 "".toList = 50
    ∧ wellbeing_level (risk_score 0 "".toList) = "Needs Some Tending üçÇ" :=
  claim_C2_empty_input "".toList (by decide)

/-- Claim C3 counterexample: with a neutral sentiment (compound 0.0) on
the empty text, the final score is 50, while the lexical-only result is 0
— the neutral sentiment is not a zero contribution. -/
theorem claim_C3_counterexample :
    risk_score 0 "".toList = 50
    ∧ lexicalScore "".toList = 0
    ∧ risk_score 0 "".toList ≠ lexicalScore "".toList := by
  have h50 : risk_score 0 "".toList = 50 := risk_score_whitespace _ (by decide)
  have hlex : lexicalScore "".toList = 0 := by
    rw [lexicalScore,
      categoryScore_whitespace depression_keywords (by decide) _ (by decide),
      categoryScore_whitespace anxiety_keywords (by decide) _ (by decide),
      categoryScore_whitespace sleep_keywords (by decide) _ (by decide),
      categoryScore_whitespace social_keywords (by decide) _ (by decide),
      categoryScore_whitespace motivation_keywords (by decide) _ (by decide)]
    ring
  refine ⟨h50, hlex, ?_⟩
  rw [h50, hlex]
  norm_num

/-- Claim C3 as amended: a neutral sentiment (compound 0.0) contributes
the constant baseline (1 - 0) * 50 = 50, so the final score equals the
lexical-only result shifted by 50 and then clamped — not the lexical-only
result itself. -/
theorem claim_C3_neutral_sentiment (t : List Char) :
    risk_score 0 t = clamp (50 + lexicalScore t) := by
  rw [risk_score, rawScore_eq_lexical]
  norm_num

/-- Claim C4 counterexample: on the text `sad` with neutral sentiment the
raw (pre-clamp) score of the code is 380/7, while the sum over categories
of weight times matched-occurrence count prescribed by the claim is 15. -/
theorem claim_C4_counterexample :
    rawScore 0 "sad".toList = 380 / 7
    ∧ specRawScore "sad".toList = 15
    ∧ (380 / 7 : ℚ) ≠ 15 := by
  have h1 : categoryCount depression_keywords "sad".toList = 1 := by decide
  have h2 : categoryCount anxiety_keywords "sad".toList = 0 := by decide
  have h3 : categoryCount sleep_keywords "sad".toList = 0 := by decide
  have h4 : categoryCount social_keywords "sad".toList = 0 := by decide
  have h5 : categoryCount motivation_keywords "sad".toList = 0 := by decide
  have o1 : categoryOccCount depression_keywords "sad".toList = 1 := by decide
  have o2 : categoryOccCount anxiety_keywords "sad".toList = 0 := by decide
  have o3 : categoryOccCount sleep_keywords "sad".toList = 0 := by decide
  have o4 : categoryOccCount social_keywords "sad".toList = 0 := by decide
  have o5 : categoryOccCount motivation_keywords "sad".toList = 0 := by decide
  refine ⟨?_, ?_, by norm_num⟩
  · rw [rawScore_eq_categoryScores, categoryScore, categoryScore,
      categoryScore, categoryScore, categoryScore, h1, h2, h3, h4, h5]
    norm_num [min_def, depression_keywords, anxiety_keywords, sleep_keywords,
      social_keywords, motivation_keywords]
  · rw [specRawScore, o1, o2, o3, o4, o5]
    norm_num

/-- Claim C4 as amended: the raw score is the neutral-shifted sentiment
term (1 - compound) * 50 plus, per category, the weight times the
normalised score min(2 * distinct-present-count / list-length, 1) — the
per-category contribution is a capped presence ratio, not a raw
occurrence count. -/
theorem claim_C4_raw_score_formula (compound : ℚ) (t : List Char) :
    rawScore compound t
      = (1 - compound) * 50
        + min (2 * (categoryCount depression_keywords t : ℚ)
            / (depression_keywords.length : ℚ)) 1 * 15
        + min (2 * (categoryCount anxiety_keywords t : ℚ)
            / (anxiety_keywords.length : ℚ)) 1 * 12
        + min (2 * (categoryCount sleep_keywords t : ℚ)
            / (sleep_keywords.length : ℚ)) 1 * 10
        + min (2 * (categoryCount social_keywords t : ℚ)
            / (social_keywords.length : ℚ)) 1 * 8
        + min (2 * (categoryCount motivation_keywords t : ℚ)
            / (motivation_keywords.length : ℚ)) 1 * 5 := by
  rw [rawScore_eq_categoryScores, categoryScore_eq, categoryScore_eq,
    categoryScore_eq, categoryScore_eq, categoryScore_eq]

/-- Claim C9: for every text and every well-formed resolved span set
(ordered, pairwise disjoint, within the text), concatenating the text
slices of the segments produced by the spec-modelled Annotator reproduces
the input text exactly. -/
theorem claim_C9_round_trip (text : List Char)
    (spans : List (Nat × Nat × String))
    (hok : spansOK text.length 0 spans = true) :
    segmentsText (annotate text 0 spans) = text := by
  have h := annotate_flatten text spans 0 hok
  simpa using h

/-- Claim C9 witness: annotating a 20-character text with two disjoint
spans round-trips. -/
theorem claim_C9_witness :
    segmentsText (annotate "I feel sad and tired".toList 0
      [(7, 10, "depression"), (15, 20, "sleep")])
      = "I feel sad and tired".toList :=
  claim_C9_round_trip _ _ (by decide)
